import Mathlib

/-!
Shallow embedding of the transform/validation stage of the sales ETL pipeline
(`src/etl/transform.py`): string normalisation (`clean_string`), flexible date
parsing (`parse_date_flexible`), numeric coercion (`pd.to_numeric` with
`errors="coerce"`), product-name resolution (`map_producto`), duplicate
elimination (`drop_duplicates(keep="first")`) and the orchestrator
(`transform_ventas`), together with proofs of the spec claims about them.

Cells of the raw dataframe are modelled as `Option String` (`none` = missing /
NaN); machine floats are modelled as `ℚ`; a run of `transform_ventas` that
raises a Python exception is modelled as `Except.error`.
-/

namespace ETL

/-! ### Python string primitives -/

/-- Whitespace test used by Python's `str.strip`/`str.split` (ASCII subset:
space, tab, newline, carriage return, vertical tab, form feed), phrased on
the code point. -/
def isWs (c : Char) : Bool :=
  c.toNat = 32 || c.toNat = 9 || c.toNat = 10 || c.toNat = 13 || c.toNat = 11 || c.toNat = 12

/-- Model of Python `str.lower` on a single character, covering the ASCII
letters `A`-`Z` (code points 65-90) and the Latin-1 letters `À`-`Þ` (code
points 192-222, excluding `×` at 215), whose lowercase forms all sit 32 code
points higher; every other character is left unchanged. -/
def pyLowerChar (c : Char) : Char :=
  if (65 ≤ c.toNat ∧ c.toNat ≤ 90) ∨ (192 ≤ c.toNat ∧ c.toNat ≤ 222 ∧ c.toNat ≠ 215) then
    Char.ofNat (c.toNat + 32)
  else c

/-- Remove leading and trailing whitespace, as Python's `str.strip()`. -/
def stripChars (l : List Char) : List Char :=
  ((l.dropWhile isWs).reverse.dropWhile isWs).reverse

/-- Python `str.strip()` on a `String`. -/
def pyStrip (s : String) : String := ⟨stripChars s.data⟩

/-- Python `str.lower()` on a `String`. -/
def pyLower (s : String) : String := ⟨s.data.map pyLowerChar⟩

/-- The key normalisation `nombre.lower().strip()` used at `transform.py:124`
and `transform.py:129` for both the product-map keys and incoming names. -/
def normKey (s : String) : String := pyStrip (pyLower s)

/-- Accumulator pass of Python `str.split()` (split on whitespace runs,
dropping empty fields); `acc` holds the current word reversed. -/
def splitWsAux : List Char → List Char → List (List Char)
  | [], acc => if acc.isEmpty then [] else [acc.reverse]
  | c :: cs, acc =>
    if isWs c then
      if acc.isEmpty then splitWsAux cs [] else acc.reverse :: splitWsAux cs []
    else splitWsAux cs (c :: acc)

/-- Python `str.split()` with no arguments. -/
def splitWs (l : List Char) : List (List Char) := splitWsAux l []

/-- Join a list of words with single spaces, as `" ".join(words)`. -/
def joinSep : List (List Char) → List Char
  | [] => []
  | [w] => w
  | w :: ws => w ++ ' ' :: joinSep ws

/-- Character-level body of `clean_string`: `" ".join(str(value).strip().split())`
(the `strip()` is subsumed by `split()`, which already discards outer
whitespace). -/
def cleanChars (l : List Char) : List Char := joinSep (splitWs l)

/-- `clean_string` from `transform.py:46`: `""` for a missing value, otherwise
trim and collapse internal whitespace runs to single spaces. -/
def clean_string (value : Option String) : String :=
  match value with
  | none => ""
  | some s => ⟨cleanChars s.data⟩

/-! ### Numeric coercion, a model of `pd.to_numeric(errors="coerce")` -/

/-- Numeric value of a digit character. -/
def digitVal (c : Char) : Nat := c.toNat - 48

/-- Value of a list of digit characters read in base 10. -/
def natOfDigits (l : List Char) : Nat := l.foldl (fun a c => a * 10 + digitVal c) 0

/-- Attach an optional leading minus sign to a parsed magnitude. -/
def signApply (neg : Bool) (q : ℚ) : ℚ := if neg then -q else q

/-- Decimal parser modelling `pd.to_numeric(errors="coerce")` on string cells:
optional surrounding whitespace, optional sign, digits with an optional
decimal point; anything else coerces to NaN (`none`). -/
def parseDecimal (s : String) : Option ℚ :=
  let cs := stripChars s.data
  let signed : Bool × List Char :=
    match cs with
    | '-' :: r => (true, r)
    | '+' :: r => (false, r)
    | _ => (false, cs)
  let intPart := signed.2.takeWhile Char.isDigit
  let rest := signed.2.dropWhile Char.isDigit
  match rest with
  | [] =>
    if intPart.isEmpty then none
    else some (signApply signed.1 (natOfDigits intPart : ℚ))
  | '.' :: r2 =>
    let fracPart := r2.takeWhile Char.isDigit
    if (r2.dropWhile Char.isDigit).isEmpty then
      if intPart.isEmpty && fracPart.isEmpty then none
      else some (signApply signed.1
        ((natOfDigits intPart : ℚ) + (natOfDigits fracPart : ℚ) / (10 ^ fracPart.length : ℚ)))
    else none
  | _ => none

/-- `pd.to_numeric(column, errors="coerce")` on one cell: NaN stays NaN,
unparseable strings become NaN. -/
def pyToNumeric (v : Option String) : Option ℚ :=
  match v with
  | none => none
  | some s => parseDecimal s

/-! ### Dates and `parse_date_flexible` -/

/-- A calendar date as produced by `datetime.strptime`. -/
structure PDate where
  year : Nat
  month : Nat
  day : Nat
deriving DecidableEq, Repr

/-- Gregorian leap-year rule used by `datetime`. -/
def isLeap (y : Nat) : Bool := y % 4 = 0 && (y % 100 ≠ 0 || y % 400 = 0)

/-- Number of days of month `m` in year `y`. -/
def daysInMonth (y m : Nat) : Nat :=
  if m = 2 then (if isLeap y then 29 else 28)
  else if m = 4 || m = 6 || m = 9 || m = 11 then 30
  else 31

/-- The three fields a date format can mention. -/
inductive DField | year | month | day
deriving DecidableEq, Repr

/-- One `strptime` format of the shape `field sep field sep field`, which is
the shape of all six formats in `parse_date_flexible`. -/
structure DateFmt where
  f1 : DField
  f2 : DField
  f3 : DField
  sep : Char
deriving Repr

/-- Candidate matches (value and remaining input) for `%d`, in the alternation
order of CPython's `_strptime` regex `3[01]|[12]\d|0[1-9]|[1-9]`. -/
def dayCands (cs : List Char) : List (Nat × List Char) :=
  (match cs with
   | a :: b :: rest =>
     (if a = '3' && (b = '0' || b = '1') then [(30 + digitVal b, rest)] else []) ++
     (if (a = '1' || a = '2') && b.isDigit then [(digitVal a * 10 + digitVal b, rest)] else []) ++
     (if a = '0' && ('1' ≤ b && b ≤ '9') then [(digitVal b, rest)] else [])
   | _ => []) ++
  (match cs with
   | a :: rest => if '1' ≤ a && a ≤ '9' then [(digitVal a, rest)] else []
   | _ => [])

/-- Candidate matches for `%m`, alternation order `1[0-2]|0[1-9]|[1-9]`. -/
def monthCands (cs : List Char) : List (Nat × List Char) :=
  (match cs with
   | a :: b :: rest =>
     (if a = '1' && (b = '0' || b = '1' || b = '2') then [(10 + digitVal b, rest)] else []) ++
     (if a = '0' && ('1' ≤ b && b ≤ '9') then [(digitVal b, rest)] else [])
   | _ => []) ++
  (match cs with
   | a :: rest => if '1' ≤ a && a ≤ '9' then [(digitVal a, rest)] else []
   | _ => [])

/-- Candidate matches for `%Y`: exactly four digits (`\d\d\d\d`). -/
def yearCands (cs : List Char) : List (Nat × List Char) :=
  match cs with
  | a :: b :: c :: d :: rest =>
    if a.isDigit && b.isDigit && c.isDigit && d.isDigit then
      [(digitVal a * 1000 + digitVal b * 100 + digitVal c * 10 + digitVal d, rest)]
    else []
  | _ => []

/-- Candidates for one format field. -/
def fieldCands : DField → List Char → List (Nat × List Char)
  | .year => yearCands
  | .month => monthCands
  | .day => dayCands

/-- First success of `f` over a list, used for regex-style backtracking and for
the ordered try-list of formats. -/
def firstSome : List α → (α → Option β) → Option β
  | [], _ => none
  | a :: l, f =>
    match f a with
    | some b => some b
    | none => firstSome l f

/-- Calendar validation performed by the `datetime` constructor after the
regex match: `MINYEAR = 1` and the day must exist in the month (the regex
already bounds month to 1..12 and day to 1..31). -/
def mkPDate (f1 : DField) (v1 : Nat) (f2 : DField) (v2 : Nat) (f3 : DField) (v3 : Nat) :
    Option PDate :=
  let pick : DField → Option Nat := fun f =>
    if f1 = f then some v1 else if f2 = f then some v2 else if f3 = f then some v3 else none
  match pick .year, pick .month, pick .day with
  | some y, some m, some d =>
    if 1 ≤ y && d ≤ daysInMonth y m then some ⟨y, m, d⟩ else none
  | _, _, _ => none

/-- Match one `strptime` format against the whole input (leftover characters
mean `ValueError: unconverted data remains`), with the regex's backtracking
across field alternatives. -/
def matchFmt (f : DateFmt) (cs : List Char) : Option PDate :=
  firstSome (fieldCands f.f1 cs) fun p1 =>
    match p1.2 with
    | c :: r1 =>
      if c = f.sep then
        firstSome (fieldCands f.f2 r1) fun p2 =>
          match p2.2 with
          | c2 :: r2 =>
            if c2 = f.sep then
              firstSome (fieldCands f.f3 r2) fun p3 =>
                if p3.2.isEmpty then mkPDate f.f1 p1.1 f.f2 p2.1 f.f3 p3.1 else none
            else none
          | [] => none
      else none
    | [] => none

/-- The fixed format list of `parse_date_flexible` (`transform.py:28`), in
source order: `%Y-%m-%d`, `%d/%m/%Y`, `%m/%d/%Y`, `%d-%m-%Y`, `%m-%d-%Y`,
`%Y/%m/%d`. -/
def dateFormatList : List DateFmt :=
  [⟨.year, .month, .day, '-'⟩,
   ⟨.day, .month, .year, '/'⟩,
   ⟨.month, .day, .year, '/'⟩,
   ⟨.day, .month, .year, '-'⟩,
   ⟨.month, .day, .year, '-'⟩,
   ⟨.year, .month, .day, '/'⟩]

/-- `parse_date_flexible` from `transform.py:22`: `None` for missing/empty
input, otherwise the first format of `dateFormatList` that parses the trimmed
string in full; `None` when no format matches. Total, hence it never raises. -/
def parse_date_flexible (date_str : Option String) : Option PDate :=
  match date_str with
  | none => none
  | some s =>
    if s = "" then none
    else firstSome dateFormatList fun f => matchFmt f (stripChars s.data)

/-- Zero-pad a numeral to two digits. -/
def pad2 (n : Nat) : String := if n < 10 then "0" ++ toString n else toString n

/-- Zero-pad a numeral to four digits. -/
def pad4 (n : Nat) : String :=
  if n < 10 then "000" ++ toString n
  else if n < 100 then "00" ++ toString n
  else if n < 1000 then "0" ++ toString n
  else toString n

/-- `dt.strftime("%Y-%m-%d")` on one resolved date (`transform.py:159`). -/
def strftimeYmd (d : PDate) : String := pad4 d.year ++ "-" ++ pad2 d.month ++ "-" ++ pad2 d.day

/-! ### Product resolution -/

/-- `productos_map_lower = {k.lower().strip(): v for k, v in productos_map.items()}`
(`transform.py:124`); the product map is an association list read left to
right. -/
def buildMapLower (pm : List (String × Int)) : List (String × Int) :=
  pm.map fun kv => (normKey kv.1, kv.2)

/-- Python `dict` lookup on an association list built by iterating the list:
a later binding of the same key overwrites an earlier one. -/
def pyDictGet (l : List (String × Int)) (k : String) : Option Int :=
  (l.reverse.find? fun kv => kv.1 = k).map fun kv => kv.2

/-- `map_producto` from `transform.py:126`: `None` for a missing name,
otherwise look the lowercased and trimmed name up in the normalised map. -/
def map_producto (pm : List (String × Int)) (nombre : Option String) : Option Int :=
  match nombre with
  | none => none
  | some n => pyDictGet (buildMapLower pm) (normKey n)

/-! ### Rows and the working batch -/

/-- One raw input row with the fields `transform_ventas` reads; `none` models
a missing / NaN cell. -/
structure RawRow where
  fecha : Option String
  producto : Option String
  cantidad : Option String
  precio_unitario : Option String
  tienda : Option String
  vendedor : Option String
deriving DecidableEq, Repr, Inhabited

/-- One row of `df_work` after steps 1-5 of `transform_ventas`: cleaned
strings, the derived `fecha_parsed` column, coerced numerics and the resolved
product id, keyed by the original dataframe index. -/
structure WorkRow where
  idx : Nat
  raw : RawRow
  producto : String
  tienda : String
  vendedor : String
  fecha_parsed : Option PDate
  cantidad : Option ℚ
  precio_unitario : Option ℚ
  producto_id : Option Int
deriving DecidableEq, Repr

/-- Steps 1-5 of `transform_ventas` on one row (each of them is an
elementwise `apply`/`to_numeric`, so rows are processed independently). -/
def processRow (pm : List (String × Int)) (i : Nat) (r : RawRow) : WorkRow :=
  let producto := clean_string r.producto
  { idx := i
    raw := r
    producto := producto
    tienda := clean_string r.tienda
    vendedor := clean_string r.vendedor
    fecha_parsed := parse_date_flexible r.fecha
    cantidad := pyToNumeric r.cantidad
    precio_unitario := pyToNumeric r.precio_unitario
    producto_id := map_producto pm (some producto) }

/-- The working batch `df_work` after steps 1-5, indexed like the input. -/
def mkWork (df : List RawRow) (pm : List (String × Int)) : List WorkRow :=
  df.enum.map fun p => processRow pm p.1 p.2

/-- `mask_fecha_invalida` at one row (`transform.py:94`). -/
def fechaInvalida (w : WorkRow) : Bool := w.fecha_parsed.isNone

/-- `mask_cantidad_invalida` at one row (`transform.py:106`): NaN or `≤ 0`. -/
def cantidadInvalida (w : WorkRow) : Bool :=
  match w.cantidad with
  | none => true
  | some q => q ≤ 0

/-- `mask_precio_invalido` at one row (`transform.py:107`). -/
def precioInvalido (w : WorkRow) : Bool :=
  match w.precio_unitario with
  | none => true
  | some q => q ≤ 0

/-- `mask_producto_no_encontrado` at one row (`transform.py:134`). -/
def productoNoEncontrado (w : WorkRow) : Bool := w.producto_id.isNone

/-- Membership of the row's index in `set(rejected_rows)` (`transform.py:151`):
the row tripped at least one of the four validation masks. -/
def isRejected (w : WorkRow) : Bool :=
  fechaInvalida w || cantidadInvalida w || precioInvalido w || productoNoEncontrado w

/-! ### Deduplication -/

/-- The `drop_duplicates` key tuple `cols_dedup` (`transform.py:143`) as it
stands in `df_work` at step 6: original date text, cleaned product name,
coerced quantity and unit price (pandas compares NaN equal here), cleaned
store name. -/
def dedupKey (w : WorkRow) : Option String × String × Option ℚ × Option ℚ × String :=
  (w.raw.fecha, w.producto, w.cantidad, w.precio_unitario, w.tienda)

/-- Scan of `drop_duplicates(subset=cols_dedup, keep="first")`: keep a row iff
its key has not been seen before. -/
def dropDupsAux : List WorkRow → List (Option String × String × Option ℚ × Option ℚ × String) →
    List WorkRow
  | [], _ => []
  | w :: ws, seen =>
    if dedupKey w ∈ seen then dropDupsAux ws seen
    else w :: dropDupsAux ws (dedupKey w :: seen)

/-- `df_work.drop_duplicates(subset=cols_dedup, keep="first")` (`transform.py:146`). -/
def dropDups (l : List WorkRow) : List WorkRow := dropDupsAux l []

/-! ### The result -/

/-- One row of the final `df_output`, projected at `transform.py:162` to the
columns `fecha, producto_id, cantidad, precio_unitario, total, tienda,
vendedor` (pandas keeps the original index alongside). -/
structure OutRow where
  idx : Nat
  fecha : Option String
  producto_id : Option Int
  cantidad : Option ℚ
  precio_unitario : Option ℚ
  total : Option ℚ
  tienda : String
  vendedor : String
deriving DecidableEq, Repr

/-- Steps 8-10 on one accepted row: `total = cantidad * precio_unitario`
(NaN-propagating, as in pandas) and `fecha = fecha_parsed.strftime("%Y-%m-%d")`. -/
def toOutRow (w : WorkRow) : OutRow :=
  { idx := w.idx
    fecha := w.fecha_parsed.map strftimeYmd
    producto_id := w.producto_id
    cantidad := w.cantidad
    precio_unitario := w.precio_unitario
    total :=
      match w.cantidad, w.precio_unitario with
      | some a, some b => some (a * b)
      | _, _ => none
    tienda := w.tienda
    vendedor := w.vendedor }

/-- The `stats` dict assembled at `transform.py:169` from the stored masks
(which were computed over the full pre-deduplication batch). -/
structure Stats where
  fechas_invalidas : Nat
  cantidades_invalidas : Nat
  precios_invalidos : Nat
  productos_no_mapeados : Nat
  duplicados_eliminados : Nat
deriving DecidableEq, Repr, Inhabited

/-- The `TransformResult` dataclass (`transform.py:10`). The boolean success
field is spelled `succes` in the source. -/
structure TransformResult where
  succes : Bool
  data : List OutRow
  rows_input : Nat
  rows_output : Nat
  rows_rejected : Nat
  rejected_data : List (Nat × RawRow)
  stats : Stats
  error : Option String
deriving DecidableEq, Repr, Inhabited

/-- The `TypeError` raised on the empty-batch path: `transform.py:65` calls
`TransformResult(success=False, ...)` but the dataclass field is `succes`,
so the generated initialiser rejects the keyword. -/
def tyErrMsg : String := "TypeError: unexpected keyword argument success"

/-- The `AttributeError` raised at `transform.py:159` when the `fecha_parsed`
column has object dtype: `.dt` only works on datetimelike columns. -/
def dtErrMsg : String := "AttributeError: can only use .dt accessor with datetimelike values"

/-- `transform_ventas` (`transform.py:53`). The input dataframe is
`Option (List RawRow)` (`none` models `df=None`); a raised exception is
`Except.error`. The `fecha_parsed` column built by `apply` at
`transform.py:91` gets a datetimelike dtype exactly when at least one row
parses (all-`None` results leave the column with object dtype, and then the
`.dt` accessor at `transform.py:159` raises). -/
def transform_ventas (df? : Option (List RawRow)) (pm : List (String × Int)) :
    Except String TransformResult :=
  match df? with
  | none => .error tyErrMsg
  | some df =>
    if df.isEmpty then .error tyErrMsg
    else
      let work := mkWork df pm
      let survivors := dropDups work
      let clean := survivors.filter fun w => !isRejected w
      let rejected := work.filter fun w => isRejected w
      if work.all fun w => w.fecha_parsed.isNone then .error dtErrMsg
      else
        .ok
          { succes := true
            data := clean.map toOutRow
            rows_input := df.length
            rows_output := clean.length
            rows_rejected := rejected.length
            rejected_data := rejected.map fun w => (w.idx, w.raw)
            stats :=
              { fechas_invalidas := (work.filter fun w => fechaInvalida w).length
                cantidades_invalidas := (work.filter fun w => cantidadInvalida w).length
                precios_invalidos := (work.filter fun w => precioInvalido w).length
                productos_no_mapeados := (work.filter fun w => productoNoEncontrado w).length
                duplicados_eliminados := work.length - survivors.length }
            error := none }

/-- Extract the result of a successful transform (junk on the error branch);
used to state closed corollaries about concrete batches. -/
def getOk (e : Except String TransformResult) : TransformResult :=
  match e with
  | .ok r => r
  | .error _ => default

/-! ### Specification-side definitions (vocabulary of the claims) -/

/-- Specification reading of first-occurrence deduplication: keep the head,
drop every later row with the same key, recurse on what is left. -/
def keepFirstSpec : List WorkRow → List WorkRow
  | [] => []
  | w :: ws => w :: keepFirstSpec (ws.filter fun v => dedupKey v ≠ dedupKey w)
termination_by l => l.length
decreasing_by
  simp only [List.length_cons]
  exact Nat.lt_succ_of_le (List.length_filter_le _ _)

/-- No two adjacent characters are both whitespace. -/
def noWsPair (l : List Char) : Prop :=
  l.Chain' fun a b => ¬(isWs a = true ∧ isWs b = true)

/-- Indices of the working rows that survive deduplication. -/
def survivorIdxList (df : List RawRow) (pm : List (String × Int)) : List Nat :=
  (dropDups (mkWork df pm)).map WorkRow.idx

/-- Indices of the rows removed by `drop_duplicates` at step 6. -/
def removedIdxList (df : List RawRow) (pm : List (String × Int)) : List Nat :=
  ((mkWork df pm).map WorkRow.idx).filter fun i => i ∉ survivorIdxList df pm

/-! ### Concrete inputs used by counterexamples and witnesses -/

/-- Scenario A of the spec: a single row whose date text `2024-13-45` matches
no format. -/
def rowScenA : RawRow :=
  ⟨some "2024-13-45", some "X", some "2", some "5", some "T1", some "V1"⟩

/-- A row that is valid except for a negative unit price. -/
def rowBadPrecio : RawRow :=
  ⟨some "2024-01-15", some "x", some "2", some "-5", some "t", some "v"⟩

/-- Batch of two identical invalid rows: both are rejected (`precio_invalido`)
and the second is also removed by deduplication. -/
def dfOverlap : List RawRow := [rowBadPrecio, rowBadPrecio]

/-- One-entry product map resolving the cleaned name `x`. -/
def pmX : List (String × Int) := [("x", 1)]

/-- Scenario C of the spec: a fully valid row in `DD/MM/YYYY` format. -/
def rowScenC : RawRow :=
  ⟨some "15/01/2024", some "Widget", some "2", some "5", some "t", some "v"⟩

/-- Product map for scenario C. -/
def pmWidget : List (String × Int) := [("widget", 7)]

/-- The accepted output row scenario C produces. -/
def outScenC : OutRow :=
  ⟨0, some "2024-01-15", some 7, some 2, some 5, some ((2 : ℚ) * (5 : ℚ)), "t", "v"⟩

/-- A row failing two independent rules at once: non-positive quantity and
non-positive price. -/
def rowTwoFails : RawRow :=
  ⟨some "2024-01-15", some "x", some "-1", some "0", some "t", some "v"⟩

/-- Batch of two identical doubly-invalid rows: category statistics count
both copies, the rejected-row count counts each row once, and one copy is
also removed as a duplicate. -/
def dfStats : List RawRow := [rowTwoFails, rowTwoFails]

/-- Valid row whose product name needs cleaning before lookup. -/
def rowGood : RawRow :=
  ⟨some "2024-01-15", some " a  b ", some "2", some "5", some "t", some "v"⟩

/-- Product map whose single key keeps an internal double space after the
lowercase-and-trim normalisation, so no cleaned incoming name can match it. -/
def pmDoubleSpace : List (String × Int) := [("a  b", 5)]

/-- Product map with an accented display name, for the case-insensitivity
example. -/
def pmCafe : List (String × Int) := [("Café Negro", 7)]

/-- Batch with one invalid-quantity row and one valid row (so the transform
returns instead of raising). -/
def dfMixed : List RawRow :=
  [⟨some "2024-01-15", some "x", some "-1", some "5", some " t ", some "v"⟩,
   ⟨some "2024-01-15", some "x", some "2", some "5", some "t", some "v"⟩]

/-! ### Deduplication lemmas -/

/-- The seen-set scan of `drop_duplicates` is a sublist of its input, so the
surviving rows keep their original relative order. -/
theorem dropDupsAux_sublist (l : List WorkRow) (seen) : List.Sublist (dropDupsAux l seen) l := by
  induction l generalizing seen with
  | nil => simp [dropDupsAux]
  | cons w ws ih =>
    simp only [dropDupsAux]
    split
    · exact (ih _).cons w
    · exact (ih _).cons₂ w

/-- The seen-set scan agrees with the keep-first-drop-later-matches reading,
relative to an initial seen set. -/
theorem dropDupsAux_eq_keepFirstSpec (l : List WorkRow) (seen) :
    dropDupsAux l seen = keepFirstSpec (l.filter fun v => dedupKey v ∉ seen) := by
  induction l generalizing seen with
  | nil => simp [dropDupsAux, keepFirstSpec]
  | cons w ws ih =>
    by_cases h : dedupKey w ∈ seen
    · simp only [dropDupsAux, List.filter_cons, h, not_true_eq_false, decide_False, ite_false,
        if_true, if_false]
      exact ih seen
    · simp only [dropDupsAux, List.filter_cons, h, not_false_eq_true, decide_True, ite_true,
        if_true, if_false, keepFirstSpec]
      rw [ih (dedupKey w :: seen), List.filter_filter]
      refine congrArg (fun t => w :: keepFirstSpec t) (List.filter_congr fun a _ => ?_)
      simp [List.mem_cons, not_or, Ne, eq_comm, And.comm]

/-! ### Character and string normalisation lemmas -/

/-- Converting a valid code point to a character and back is the identity. -/
theorem toNat_ofNat_valid (n : Nat) (h : n.isValidChar) : (Char.ofNat n).toNat = n := by
  unfold Char.ofNat
  rw [dif_pos h]
  rfl

/-- Code point of the lowercased character. -/
theorem toNat_pyLowerChar (c : Char) :
    (pyLowerChar c).toNat =
      if (65 ≤ c.toNat ∧ c.toNat ≤ 90) ∨ (192 ≤ c.toNat ∧ c.toNat ≤ 222 ∧ c.toNat ≠ 215) then
        c.toNat + 32
      else c.toNat := by
  unfold pyLowerChar
  split
  · next h => exact toNat_ofNat_valid _ (Or.inl (by omega))
  · rfl

/-- Lowercasing preserves whitespace-ness of a character. -/
theorem isWs_pyLowerChar (c : Char) : isWs (pyLowerChar c) = isWs c := by
  have h := toNat_pyLowerChar c
  by_cases hc : (65 ≤ c.toNat ∧ c.toNat ≤ 90) ∨ (192 ≤ c.toNat ∧ c.toNat ≤ 222 ∧ c.toNat ≠ 215)
  · rw [if_pos hc] at h
    have hL : isWs (pyLowerChar c) = false := by
      simp only [isWs, h, Bool.or_eq_false_iff, decide_eq_false_iff_not]
      omega
    have hR : isWs c = false := by
      simp only [isWs, Bool.or_eq_false_iff, decide_eq_false_iff_not]
      omega
    rw [hL, hR]
  · rw [if_neg hc] at h
    simp only [isWs, h]

/-- Python lowercasing is idempotent on characters. -/
theorem pyLowerChar_idem (c : Char) : pyLowerChar (pyLowerChar c) = pyLowerChar c := by
  by_cases hc : (65 ≤ c.toNat ∧ c.toNat ≤ 90) ∨ (192 ≤ c.toNat ∧ c.toNat ≤ 222 ∧ c.toNat ≠ 215)
  · have h := toNat_pyLowerChar c
    rw [if_pos hc] at h
    have hno : ¬((65 ≤ (pyLowerChar c).toNat ∧ (pyLowerChar c).toNat ≤ 90) ∨
        (192 ≤ (pyLowerChar c).toNat ∧ (pyLowerChar c).toNat ≤ 222 ∧
          (pyLowerChar c).toNat ≠ 215)) := by
      rw [h]; omega
    conv_lhs => rw [pyLowerChar, if_neg hno]
  · have h0 : pyLowerChar c = c := by rw [pyLowerChar, if_neg hc]
    rw [h0]
    exact h0

/-- Dropping a matching head segment twice is the same as dropping it once. -/
theorem dropWhile_idem {α} (p : α → Bool) (l : List α) :
    (l.dropWhile p).dropWhile p = l.dropWhile p := by
  cases h : l.dropWhile p with
  | nil => rfl
  | cons a s =>
    have h2 := List.head?_dropWhile_not p l
    rw [h] at h2
    simp only [List.head?_cons] at h2
    simp [List.dropWhile_cons, h2]

/-- If a list has no leading whitespace-like segment, removing a trailing one
keeps it that way. -/
theorem dropWhile_rdropWhile {α} (p : α → Bool) (x : List α) (hx : x.dropWhile p = x) :
    (List.rdropWhile p x).dropWhile p = List.rdropWhile p x := by
  obtain ⟨t, ht⟩ := List.dropWhile_suffix (p := p) (l := x.reverse)
  cases hS : List.rdropWhile p x with
  | nil => rfl
  | cons a s =>
    have hx2 : x = a :: (s ++ t.reverse) := by
      have h3 := congrArg List.reverse ht
      rw [List.reverse_append, List.reverse_reverse] at h3
      rw [show (x.reverse.dropWhile p).reverse = List.rdropWhile p x from rfl, hS] at h3
      simpa using h3.symm
    have ha : p a = false := by
      cases hpa : p a with
      | false => rfl
      | true =>
        exfalso
        rw [hx2, List.dropWhile_cons, hpa] at hx
        simp only [if_true, if_false, ite_true] at hx
        have hlen := congrArg List.length hx
        have hle : (List.dropWhile p (s ++ t.reverse)).length ≤ (s ++ t.reverse).length :=
          (List.dropWhile_sublist p).length_le
        simp only [List.length_cons] at hlen
        omega
    simp [List.dropWhile_cons, ha]

/-- Removing a trailing matching segment twice is the same as doing it once. -/
theorem rdropWhile_idem {α} (p : α → Bool) (x : List α) :
    List.rdropWhile p (List.rdropWhile p x) = List.rdropWhile p x := by
  simp [List.rdropWhile, List.reverse_reverse, dropWhile_idem]

/-- The two-sided trim is the front trim followed by the back trim. -/
theorem stripChars_eq (l : List Char) :
    stripChars l = List.rdropWhile isWs (l.dropWhile isWs) := rfl

/-- Python `str.strip` is idempotent. -/
theorem stripChars_idem (l : List Char) : stripChars (stripChars l) = stripChars l := by
  rw [stripChars_eq l, stripChars_eq (List.rdropWhile isWs (l.dropWhile isWs))]
  rw [dropWhile_rdropWhile isWs (l.dropWhile isWs) (dropWhile_idem _ _)]
  exact rdropWhile_idem _ _

/-- Trimming commutes with mapping a whitespace-preserving character map. -/
theorem stripChars_map (f : Char → Char) (hf : ∀ c, isWs (f c) = isWs c) (l : List Char) :
    stripChars (l.map f) = (stripChars l).map f := by
  have hpf : isWs ∘ f = isWs := funext hf
  unfold stripChars
  rw [List.dropWhile_map, hpf, ← List.map_reverse, List.dropWhile_map, hpf, ← List.map_reverse]

/-- Mapping the lowercase map twice is mapping it once. -/
theorem map_pyLowerChar_map (l : List Char) :
    (l.map pyLowerChar).map pyLowerChar = l.map pyLowerChar := by
  rw [List.map_map]
  exact List.map_congr_left fun c _ => pyLowerChar_idem c

/-- The lowercase-and-trim normalisation of `map_producto` is idempotent, the
formal content of the spec's `resolve(name) = resolve(normalize(name))`
invariant. -/
theorem normKey_idem (s : String) : normKey (normKey s) = normKey s := by
  unfold normKey pyStrip pyLower
  refine congrArg String.mk ?_
  show stripChars ((stripChars (s.data.map pyLowerChar)).map pyLowerChar) = _
  rw [← stripChars_map pyLowerChar isWs_pyLowerChar, map_pyLowerChar_map, stripChars_idem]

/-! ### Claim theorems, first group -/

/-- Claim C2. The claim says an empty or absent batch yields a
`TransformResult` with a false success flag and a populated error, without an
exception. The code instead raises `TypeError` on that path, because
`transform.py:65` passes the keyword `success` while the dataclass field is
spelled `succes`; this theorem evaluates the embedded code at both failing
inputs (`df=None` and a zero-row batch). -/
theorem claim_C2_code_bug (pm : List (String × Int)) :
    transform_ventas none pm = .error tyErrMsg ∧
    transform_ventas (some []) pm = .error tyErrMsg :=
  ⟨rfl, rfl⟩

/-- Claim C3. The claim says row-level invalidity never raises, and that a
batch whose single row has `fecha = "2024-13-45"` comes back with that row
rejected as `fecha_invalida`. In the code, when no row of the batch parses to
a date the `fecha_parsed` column keeps object dtype, and `transform.py:159`
(`df_clean["fecha_parsed"].dt.strftime`) raises `AttributeError`; this
theorem evaluates the embedded code at exactly the claim's scenario-A batch. -/
theorem claim_C3_code_bug :
    transform_ventas (some [rowScenA]) pmX = .error dtErrMsg := by
  rfl

/-- Claim C5, confirmed. `parse_date_flexible` maps missing and empty input
to `none`; on any other string it trims it and tries the six formats of
`dateFormatList` in source order, returning the first full-string match
(conjunct three is the try-list shape; the `03/04/2024` conjuncts show the
`DD/MM/YYYY` reading winning over the later `MM/DD/YYYY` even though both
match); it returns `none` when no format matches, and it is a total
function, so it never raises. -/
theorem claim_C5_parse_date :
    parse_date_flexible none = none ∧
    parse_date_flexible (some "") = none ∧
    (∀ s, parse_date_flexible (some s) =
      if s = "" then none else firstSome dateFormatList fun f => matchFmt f (stripChars s.data)) ∧
    parse_date_flexible (some "03/04/2024") = some ⟨2024, 4, 3⟩ ∧
    matchFmt ⟨.month, .day, .year, '/'⟩ (stripChars "03/04/2024".data) = some ⟨2024, 3, 4⟩ ∧
    parse_date_flexible (some "2024-01-15") = some ⟨2024, 1, 15⟩ ∧
    parse_date_flexible (some "15/01/2024") = some ⟨2024, 1, 15⟩ ∧
    parse_date_flexible (some "05/13/2024") = some ⟨2024, 5, 13⟩ ∧
    parse_date_flexible (some " 2024-1-5 ") = some ⟨2024, 1, 5⟩ ∧
    parse_date_flexible (some "2024-02-30") = none ∧
    parse_date_flexible (some "not a date") = none := by
  refine ⟨rfl, rfl, fun s => rfl, ?_, ?_, ?_, ?_, ?_, ?_, ?_, ?_⟩ <;> rfl

/-- Claim C6, confirmed. The deduplication step of `transform_ventas`
(`dropDups`, the embedding of `drop_duplicates(subset=cols_dedup,
keep="first")` at `transform.py:146`) keeps the first occurrence of each key
tuple and drops every later exact match (`keepFirstSpec`), and its output is
a sublist of its input, so the surviving rows appear in their original
order. -/
theorem claim_C6_dedup (l : List WorkRow) :
    dropDups l = keepFirstSpec l ∧ List.Sublist (dropDups l) l := by
  constructor
  · have h := dropDupsAux_eq_keepFirstSpec l []
    simpa [dropDups, List.not_mem_nil] using h
  · exact dropDupsAux_sublist l []

/-- Claim C7, confirmed. `map_producto` normalises the incoming name with the
same lowercase-and-trim that was applied to the map keys, so resolving a name
and resolving its normalised form agree for every map and every name (the
spec's invariant for variants differing only in case and outer whitespace); a
missing name resolves to not-found, and the three concrete variants of the
accented example all resolve to the same identifier. -/
theorem claim_C7_product_resolution :
    (∀ pm n, map_producto pm (some n) = map_producto pm (some (normKey n))) ∧
    (∀ pm, map_producto pm none = none) ∧
    map_producto pmCafe (some "Café Negro") = some 7 ∧
    map_producto pmCafe (some " café negro ") = some 7 ∧
    map_producto pmCafe (some "CAFÉ NEGRO") = some 7 := by
  refine ⟨fun pm n => ?_, fun pm => rfl, rfl, rfl, rfl⟩
  simp only [map_producto, normKey_idem]

/-! ### Whitespace-run lemmas for product-map keys -/

/-- Words produced by Python `str.split()` are nonempty and free of
whitespace. -/
theorem splitWsAux_words (l : List Char) (acc : List Char)
    (hacc : ∀ c ∈ acc, isWs c = false) :
    ∀ w ∈ splitWsAux l acc, w ≠ [] ∧ ∀ c ∈ w, isWs c = false := by
  induction l generalizing acc with
  | nil =>
    intro w hw
    simp only [splitWsAux] at hw
    split at hw
    · simp at hw
    · next ha =>
      simp only [List.mem_singleton] at hw
      subst hw
      refine ⟨fun hnil => ?_, fun c hc => hacc c (List.mem_reverse.mp hc)⟩
      rw [List.reverse_eq_nil_iff] at hnil
      simp [hnil] at ha
  | cons c cs ih =>
    intro w hw
    simp only [splitWsAux] at hw
    by_cases hc : isWs c
    · rw [if_pos hc] at hw
      split at hw
      · exact ih [] (by simp) w hw
      · next ha =>
        rcases List.mem_cons.mp hw with hw | hw
        · subst hw
          refine ⟨fun hnil => ?_, fun d hd => hacc d (List.mem_reverse.mp hd)⟩
          rw [List.reverse_eq_nil_iff] at hnil
          simp [hnil] at ha
        · exact ih [] (by simp) w hw
    · rw [if_neg hc] at hw
      refine ih (c :: acc) ?_ w hw
      intro d hd
      rcases List.mem_cons.mp hd with rfl | hd
      · exact Bool.not_eq_true _ ▸ by simpa using hc
      · exact hacc d hd

/-- A list with no whitespace at all has no adjacent whitespace pair. -/
theorem noWsPair_of_all (w : List Char) (h : ∀ c ∈ w, isWs c = false) : noWsPair w := by
  induction w with
  | nil => exact List.chain'_nil
  | cons a t ih =>
    rw [noWsPair, List.chain'_cons']
    refine ⟨fun y _ hy => ?_, ih fun c hc => h c (List.mem_cons_of_mem a hc)⟩
    exact absurd hy.1 (by simp [h a (List.mem_cons_self a t)])

/-- The head of a space-joined word list is the head of its first word. -/
theorem joinSep_head? (w : List Char) (ws : List (List Char)) (hw : w ≠ []) :
    (joinSep (w :: ws)).head? = w.head? := by
  cases ws with
  | nil => rfl
  | cons w2 ws2 =>
    cases w with
    | nil => exact absurd rfl hw
    | cons a t => rfl

/-- Joining nonempty whitespace-free words with single spaces yields no
adjacent whitespace pair. -/
theorem noWsPair_joinSep (ws : List (List Char))
    (hws : ∀ w ∈ ws, w ≠ [] ∧ ∀ c ∈ w, isWs c = false) : noWsPair (joinSep ws) := by
  induction ws using joinSep.induct with
  | case1 => exact List.chain'_nil
  | case2 w => exact noWsPair_of_all w (hws w (by simp)).2
  | case3 w ws hne ih =>
    cases ws with
    | nil => exact absurd rfl fun h => hne h
    | cons w2 ws2 =>
      have hw := hws w (by simp)
      have hw2 : w2 ≠ [] := (hws w2 (by simp)).1
      show List.Chain' _ (w ++ ' ' :: joinSep (w2 :: ws2))
      rw [List.chain'_append]
      refine ⟨noWsPair_of_all w hw.2, ?_, ?_⟩
      · rw [List.chain'_cons']
        refine ⟨fun y hy hp => ?_, ih fun v hv => hws v (List.mem_cons_of_mem w hv)⟩
        rw [joinSep_head? w2 ws2 hw2] at hy
        have hyw2 : y ∈ w2 := by
          cases w2 with
          | nil => exact absurd rfl hw2
          | cons b t =>
            simp only [List.head?_cons, Option.mem_def, Option.some_inj] at hy
            simp [hy]
        exact absurd hp.2 (by simp [(hws w2 (by simp)).2 y hyw2])
      · intro x hx y hy hp
        have hxw : x ∈ w := List.mem_of_getLast?_eq_some hx
        exact absurd hp.1 (by simp [hw.2 x hxw])

/-- Adjacent pairs survive reversal (the relation is symmetric). -/
theorem noWsPair_reverse (l : List Char) (h : noWsPair l) : noWsPair l.reverse := by
  rw [noWsPair, List.chain'_reverse]
  exact h.imp fun a b hab hp => hab ⟨hp.2, hp.1⟩

/-- Trimming preserves the absence of adjacent whitespace pairs. -/
theorem noWsPair_stripChars (l : List Char) (h : noWsPair l) : noWsPair (stripChars l) := by
  unfold stripChars
  exact noWsPair_reverse _ (((noWsPair_reverse _
    (h.suffix (List.dropWhile_suffix isWs))).suffix (List.dropWhile_suffix isWs)))

/-- Lowercasing preserves the absence of adjacent whitespace pairs. -/
theorem noWsPair_map_pyLowerChar (l : List Char) (h : noWsPair l) :
    noWsPair (l.map pyLowerChar) := by
  rw [noWsPair, List.chain'_map]
  exact h.imp fun a b hab hp => by
    rw [isWs_pyLowerChar, isWs_pyLowerChar] at hp
    exact hab hp

/-- The normalised form of any cleaned incoming product name has no internal
run of two or more whitespace characters. -/
theorem noWsPair_normKey_clean (v : Option String) :
    noWsPair (normKey (clean_string v)).data := by
  cases v with
  | none => exact List.chain'_nil
  | some s =>
    show noWsPair (stripChars ((cleanChars s.data).map pyLowerChar))
    refine noWsPair_stripChars _ (noWsPair_map_pyLowerChar _ ?_)
    exact noWsPair_joinSep (splitWs s.data) (splitWsAux_words s.data [] (by simp))

/-! ### Working-batch lemmas -/

/-- The working batch has one row per input row. -/
theorem length_mkWork (df : List RawRow) (pm : List (String × Int)) :
    (mkWork df pm).length = df.length := by
  simp [mkWork]

/-- Every working row comes from the input row at its own index, through
steps 1-5. -/
theorem mem_mkWork {df : List RawRow} {pm : List (String × Int)} {w : WorkRow}
    (h : w ∈ mkWork df pm) :
    df[w.idx]? = some w.raw ∧ w = processRow pm w.idx w.raw := by
  obtain ⟨⟨i, r⟩, hmem, rfl⟩ := List.mem_map.mp h
  exact ⟨List.mem_enum_iff_getElem?.mp hmem, rfl⟩

/-- The indices of the working batch are the input positions, in order. -/
theorem mkWork_map_idx (df : List RawRow) (pm : List (String × Int)) :
    (mkWork df pm).map WorkRow.idx = List.range df.length := by
  unfold mkWork
  rw [List.map_map]
  rw [show (WorkRow.idx ∘ fun p : Nat × RawRow => processRow pm p.1 p.2) = Prod.fst from
    funext fun p => rfl]
  exact List.enum_map_fst df

/-- Two working rows of one batch with the same index are the same row. -/
theorem idx_inj_mkWork {df : List RawRow} {pm : List (String × Int)} {w1 w2 : WorkRow}
    (h1 : w1 ∈ mkWork df pm) (h2 : w2 ∈ mkWork df pm) (hidx : w1.idx = w2.idx) : w1 = w2 := by
  obtain ⟨hg1, he1⟩ := mem_mkWork h1
  obtain ⟨hg2, he2⟩ := mem_mkWork h2
  rw [hidx] at hg1
  have hraw : w1.raw = w2.raw := Option.some.inj (hg1.symm.trans hg2)
  rw [he1, he2, hidx, hraw]

/-- Unfolding of a successful `transform_ventas` run into its parts. -/
theorem transform_ok_elim {df : List RawRow} {pm : List (String × Int)} {r : TransformResult}
    (h : transform_ventas (some df) pm = .ok r) :
    r.data = ((dropDups (mkWork df pm)).filter fun w => !isRejected w).map toOutRow ∧
    r.rejected_data =
      ((mkWork df pm).filter fun w => isRejected w).map (fun w => (w.idx, w.raw)) ∧
    r.rows_rejected = ((mkWork df pm).filter fun w => isRejected w).length ∧
    r.rows_input = df.length ∧
    r.rows_output = ((dropDups (mkWork df pm)).filter fun w => !isRejected w).length ∧
    r.stats.fechas_invalidas = ((mkWork df pm).filter fun w => fechaInvalida w).length ∧
    r.stats.cantidades_invalidas = ((mkWork df pm).filter fun w => cantidadInvalida w).length ∧
    r.stats.precios_invalidos = ((mkWork df pm).filter fun w => precioInvalido w).length ∧
    r.stats.productos_no_mapeados =
      ((mkWork df pm).filter fun w => productoNoEncontrado w).length ∧
    r.stats.duplicados_eliminados = (mkWork df pm).length - (dropDups (mkWork df pm)).length := by
  by_cases h1 : df.isEmpty
  · exact absurd h (by simp [transform_ventas, h1])
  · by_cases h2 : ((mkWork df pm).all fun w => w.fecha_parsed.isNone)
    · exact absurd h (by simp [transform_ventas, h1, h2])
    · simp only [transform_ventas, h1, h2, Bool.false_eq_true, if_false, ite_false,
        Except.ok.injEq] at h
      subst h
      exact ⟨rfl, rfl, rfl, rfl, rfl, rfl, rfl, rfl, rfl, rfl⟩

/-! ### Claim theorems, second group -/

/-- Claim C4, confirmed. Every row of the accepted output of a successful
`transform_ventas` run satisfies: `total` is exactly the product of the
coerced `cantidad` and `precio_unitario` of the input row at its index,
`fecha` is that row's resolved date reformatted as `YYYY-MM-DD`, and the
remaining output columns (`producto_id`, `tienda`, `vendedor`) are the
resolved product id and the cleaned store and salesperson strings — the
output rows are `OutRow` records, whose fields are exactly the projected
column set `fecha, producto_id, cantidad, precio_unitario, total, tienda,
vendedor` of `transform.py:162`. -/
theorem claim_C4_accepted_rows (df : List RawRow) (pm : List (String × Int))
    (r : TransformResult) (h : transform_ventas (some df) pm = .ok r) :
    ∀ o ∈ r.data,
      ∃ raw a b d,
        df[o.idx]? = some raw ∧
        pyToNumeric raw.cantidad = some a ∧ o.cantidad = some a ∧
        pyToNumeric raw.precio_unitario = some b ∧ o.precio_unitario = some b ∧
        o.total = some (a * b) ∧
        parse_date_flexible raw.fecha = some d ∧ o.fecha = some (strftimeYmd d) ∧
        o.producto_id = map_producto pm (some (clean_string raw.producto)) ∧
        o.tienda = clean_string raw.tienda ∧ o.vendedor = clean_string raw.vendedor := by
  intro o ho
  obtain ⟨hdata, -⟩ := transform_ok_elim h
  rw [hdata] at ho
  obtain ⟨w, hwf, rfl⟩ := List.mem_map.mp ho
  obtain ⟨hwd, hnr⟩ := List.mem_filter.mp hwf
  have hww : w ∈ mkWork df pm := (dropDupsAux_sublist _ []).subset hwd
  obtain ⟨hget, hproc⟩ := mem_mkWork hww
  have hnr' : isRejected w = false := by simpa using hnr
  have hmask : ((fechaInvalida w = false ∧ cantidadInvalida w = false) ∧
      precioInvalido w = false) ∧ productoNoEncontrado w = false := by
    simpa [isRejected] using hnr'
  obtain ⟨⟨⟨hf, hc⟩, hp⟩, -⟩ := hmask
  have hcant : w.cantidad = pyToNumeric w.raw.cantidad := by rw [hproc]; rfl
  have hprec : w.precio_unitario = pyToNumeric w.raw.precio_unitario := by rw [hproc]; rfl
  have hfec : w.fecha_parsed = parse_date_flexible w.raw.fecha := by rw [hproc]; rfl
  have hpid : w.producto_id = map_producto pm (some (clean_string w.raw.producto)) := by
    rw [hproc]; rfl
  have htien : w.tienda = clean_string w.raw.tienda := by rw [hproc]; rfl
  have hvend : w.vendedor = clean_string w.raw.vendedor := by rw [hproc]; rfl
  cases hca : w.cantidad with
  | none => rw [cantidadInvalida, hca] at hc; exact absurd hc (by simp)
  | some a =>
    cases hpr : w.precio_unitario with
    | none => rw [precioInvalido, hpr] at hp; exact absurd hp (by simp)
    | some b =>
      cases hfd : w.fecha_parsed with
      | none => rw [fechaInvalida, hfd] at hf; exact absurd hf (by simp)
      | some d =>
        refine ⟨w.raw, a, b, d, hget, ?_, ?_, ?_, ?_, ?_, ?_, ?_, ?_, ?_, ?_⟩
        · rw [← hcant, hca]
        · simp [toOutRow, hca]
        · rw [← hprec, hpr]
        · simp [toOutRow, hpr]
        · simp [toOutRow, hca, hpr]
        · rw [← hfec, hfd]
        · simp [toOutRow, hfd]
        · simpa [toOutRow] using hpid
        · simpa [toOutRow] using htien
        · simpa [toOutRow] using hvend

/-- Claim C4 witness: scenario C evaluated concretely through the theorem. -/
theorem claim_C4_witness :
    ∃ raw a b d,
      [rowScenC][outScenC.idx]? = some raw ∧
      pyToNumeric raw.cantidad = some a ∧ outScenC.cantidad = some a ∧
      pyToNumeric raw.precio_unitario = some b ∧ outScenC.precio_unitario = some b ∧
      outScenC.total = some (a * b) ∧
      parse_date_flexible raw.fecha = some d ∧ outScenC.fecha = some (strftimeYmd d) ∧
      outScenC.producto_id = map_producto pmWidget (some (clean_string raw.producto)) ∧
      outScenC.tienda = clean_string raw.tienda ∧ outScenC.vendedor = clean_string raw.vendedor :=
  claim_C4_accepted_rows [rowScenC] pmWidget _ rfl outScenC (List.Mem.head [])

/-- Claim C8, confirmed. In the functional embedding the input batch is a
value and cannot be mutated (the code copies it at `transform.py:74` and
builds `df_rejected` from the original `df` at `transform.py:152`); this
theorem states the observable half: every entry of the rejected output is the
original input row at its index, with the raw field values as submitted,
untouched by cleaning or coercion. -/
theorem claim_C8_rejected_raw (df : List RawRow) (pm : List (String × Int))
    (r : TransformResult) (h : transform_ventas (some df) pm = .ok r) :
    ∀ p ∈ r.rejected_data, df[p.1]? = some p.2 ∧ p.2 ∈ df := by
  intro p hp
  obtain ⟨-, hrej, -⟩ := transform_ok_elim h
  rw [hrej] at hp
  obtain ⟨w, hwf, rfl⟩ := List.mem_map.mp hp
  obtain ⟨hget, -⟩ := mem_mkWork (List.mem_filter.mp hwf).1
  exact ⟨hget, List.getElem?_mem hget⟩

/-- Claim C8 witness: the rejected row of a concrete mixed batch is returned
with its original raw values. -/
theorem claim_C8_witness :
    dfMixed[(0, dfMixed.headI).1]? = some (0, dfMixed.headI).2 ∧
    (0, dfMixed.headI).2 ∈ dfMixed :=
  claim_C8_rejected_raw dfMixed pmX _ rfl (0, dfMixed.headI) (List.Mem.head [])

/-- Claim C1 counterexample. In the two-row batch `dfOverlap` (two identical
rows with a negative unit price) row index 1 is in the rejected output AND is
the row removed by deduplication, so a row sits in two of the claim's three
sets at once: the code adds every invalid row index to the rejected set
before deduplication (`transform.py:115-118`), then `drop_duplicates` removes
the second copy (`transform.py:146`), and `df_rejected` is built from the
original frame by index membership (`transform.py:152`), which still contains
index 1. -/
theorem claim_C1_counterexample :
    1 ∈ (getOk (transform_ventas (some dfOverlap) pmX)).rejected_data.map Prod.fst ∧
    1 ∈ removedIdxList dfOverlap pmX ∧
    (getOk (transform_ventas (some dfOverlap) pmX)).stats.duplicados_eliminados = 1 := by
  refine ⟨?_, ?_, rfl⟩
  · exact List.Mem.tail _ (List.Mem.head _)
  · exact List.Mem.head _

/-- Claim C1 as amended: on every batch where `transform_ventas` returns (it
raises when no date in the batch parses, see C3), every input row index lands
in at least one of the three sets {accepted output, rejected output, removed
as duplicate}, and the accepted set is disjoint from the other two; but a row
removed by deduplication may simultaneously appear in the rejected output
when it independently failed a validation rule, so rejected and
duplicate-removed are not disjoint (see the counterexample). -/
theorem claim_C1_amended (df : List RawRow) (pm : List (String × Int)) (r : TransformResult)
    (h : transform_ventas (some df) pm = .ok r) :
    ∀ i, i < df.length →
      ((i ∈ r.data.map OutRow.idx ∨ i ∈ r.rejected_data.map Prod.fst ∨
          i ∈ removedIdxList df pm) ∧
        ¬(i ∈ r.data.map OutRow.idx ∧ i ∈ r.rejected_data.map Prod.fst) ∧
        ¬(i ∈ r.data.map OutRow.idx ∧ i ∈ removedIdxList df pm)) := by
  intro i hi
  obtain ⟨hdata, hrej, -⟩ := transform_ok_elim h
  have hacc : r.data.map OutRow.idx =
      ((dropDups (mkWork df pm)).filter fun w => !isRejected w).map WorkRow.idx := by
    rw [hdata, List.map_map]
    rfl
  have hrej' : r.rejected_data.map Prod.fst =
      ((mkWork df pm).filter fun w => isRejected w).map WorkRow.idx := by
    rw [hrej, List.map_map]
    rfl
  refine ⟨?_, ?_, ?_⟩
  · have hiw : i ∈ (mkWork df pm).map WorkRow.idx := by
      rw [mkWork_map_idx]
      exact List.mem_range.mpr hi
    obtain ⟨w, hw, hwidx⟩ := List.mem_map.mp hiw
    by_cases hr : isRejected w
    · refine Or.inr (Or.inl ?_)
      rw [hrej']
      exact List.mem_map.mpr ⟨w, List.mem_filter.mpr ⟨hw, by simp [hr]⟩, hwidx⟩
    · by_cases hs : i ∈ survivorIdxList df pm
      · refine Or.inl ?_
        rw [hacc]
        obtain ⟨w2, hw2, hw2idx⟩ := List.mem_map.mp hs
        have hw2w : w2 ∈ mkWork df pm := (dropDupsAux_sublist _ _).subset hw2
        have hww : w2 = w := idx_inj_mkWork hw2w hw (hw2idx.trans hwidx.symm)
        refine List.mem_map.mpr ⟨w2, List.mem_filter.mpr ⟨hw2, ?_⟩, hw2idx⟩
        rw [hww]
        simp [hr]
      · refine Or.inr (Or.inr ?_)
        unfold removedIdxList
        exact List.mem_filter.mpr ⟨hiw, by simpa using hs⟩
  · rintro ⟨ha, hb⟩
    rw [hacc] at ha
    rw [hrej'] at hb
    obtain ⟨w1, hw1f, hw1idx⟩ := List.mem_map.mp ha
    obtain ⟨w2, hw2f, hw2idx⟩ := List.mem_map.mp hb
    obtain ⟨hw1d, hw1n⟩ := List.mem_filter.mp hw1f
    obtain ⟨hw2m, hw2r⟩ := List.mem_filter.mp hw2f
    have hw1m : w1 ∈ mkWork df pm := (dropDupsAux_sublist _ _).subset hw1d
    have heq : w1 = w2 := idx_inj_mkWork hw1m hw2m (hw1idx.trans hw2idx.symm)
    rw [heq] at hw1n
    simp [hw2r] at hw1n
  · rintro ⟨ha, hb⟩
    rw [hacc] at ha
    obtain ⟨w1, hw1f, hw1idx⟩ := List.mem_map.mp ha
    have hsurv : i ∈ survivorIdxList df pm :=
      List.mem_map.mpr ⟨w1, (List.mem_filter.mp hw1f).1, hw1idx⟩
    have hb' := (List.mem_filter.mp hb).2
    simp [hsurv] at hb'

/-- Claim C1 witness: the amended partition property evaluated on a concrete
mixed batch at row index 0. -/
theorem claim_C1_witness :
    0 < dfMixed.length ∧
    ((0 ∈ (getOk (transform_ventas (some dfMixed) pmX)).data.map OutRow.idx ∨
        0 ∈ (getOk (transform_ventas (some dfMixed) pmX)).rejected_data.map Prod.fst ∨
        0 ∈ removedIdxList dfMixed pmX) ∧
      ¬(0 ∈ (getOk (transform_ventas (some dfMixed) pmX)).data.map OutRow.idx ∧
        0 ∈ (getOk (transform_ventas (some dfMixed) pmX)).rejected_data.map Prod.fst) ∧
      ¬(0 ∈ (getOk (transform_ventas (some dfMixed) pmX)).data.map OutRow.idx ∧
        0 ∈ removedIdxList dfMixed pmX)) :=
  ⟨by decide, claim_C1_amended dfMixed pmX _ rfl 0 (by decide)⟩

/-- Claim C9, confirmed. `rows_rejected` counts each rejected input row once
(the code passes `rejected_rows` through `set()` at `transform.py:151`, and
the rejected index list is duplicate-free), while each per-category statistic
counts every input row failing that rule — the masks are computed over the
full pre-deduplication batch `df.enum`, so rows later removed as duplicates
are included — and on the concrete batch `dfStats` the four category counts
sum to 4 while `rows_rejected` is 2, a strict excess. -/
theorem claim_C9_stats :
    (∀ (df : List RawRow) (pm : List (String × Int)) (r : TransformResult),
      transform_ventas (some df) pm = .ok r →
      r.rows_rejected = (df.enum.filter fun p => isRejected (processRow pm p.1 p.2)).length ∧
      (r.rejected_data.map Prod.fst).Nodup ∧
      r.stats.fechas_invalidas =
        (df.enum.filter fun p => fechaInvalida (processRow pm p.1 p.2)).length ∧
      r.stats.cantidades_invalidas =
        (df.enum.filter fun p => cantidadInvalida (processRow pm p.1 p.2)).length ∧
      r.stats.precios_invalidos =
        (df.enum.filter fun p => precioInvalido (processRow pm p.1 p.2)).length ∧
      r.stats.productos_no_mapeados =
        (df.enum.filter fun p => productoNoEncontrado (processRow pm p.1 p.2)).length) ∧
    ((getOk (transform_ventas (some dfStats) pmX)).rows_rejected = 2 ∧
      (getOk (transform_ventas (some dfStats) pmX)).stats.duplicados_eliminados = 1 ∧
      (getOk (transform_ventas (some dfStats) pmX)).stats.fechas_invalidas +
        (getOk (transform_ventas (some dfStats) pmX)).stats.cantidades_invalidas +
        (getOk (transform_ventas (some dfStats) pmX)).stats.precios_invalidos +
        (getOk (transform_ventas (some dfStats) pmX)).stats.productos_no_mapeados = 4) := by
  constructor
  · intro df pm r h
    obtain ⟨-, hrej, hcount, -, -, hst1, hst2, hst3, hst4, -⟩ := transform_ok_elim h
    have key : ∀ q : WorkRow → Bool,
        ((mkWork df pm).filter q).length =
          (df.enum.filter fun p => q (processRow pm p.1 p.2)).length := by
      intro q
      unfold mkWork
      rw [List.filter_map, List.length_map]
      rfl
    refine ⟨by rw [hcount]; exact key _, ?_, by rw [hst1]; exact key _,
      by rw [hst2]; exact key _, by rw [hst3]; exact key _, by rw [hst4]; exact key _⟩
    rw [hrej, List.map_map]
    have h1 : ((mkWork df pm).filter fun w => isRejected w).map
        (Prod.fst ∘ fun w => (w.idx, w.raw)) =
        ((mkWork df pm).filter fun w => isRejected w).map WorkRow.idx := rfl
    rw [h1]
    have hsl := (List.filter_sublist (p := fun w => isRejected w) (mkWork df pm)).map WorkRow.idx
    rw [mkWork_map_idx] at hsl
    exact (List.nodup_range _).sublist hsl
  · exact ⟨rfl, rfl, rfl⟩

/-- Claim C9 witness: the counting clauses evaluated on the concrete batch
`dfStats` through the theorem. -/
theorem claim_C9_witness :
    (getOk (transform_ventas (some dfStats) pmX)).rows_rejected =
      (dfStats.enum.filter fun p => isRejected (processRow pmX p.1 p.2)).length ∧
    ((getOk (transform_ventas (some dfStats) pmX)).rejected_data.map Prod.fst).Nodup ∧
    (getOk (transform_ventas (some dfStats) pmX)).stats.fechas_invalidas =
      (dfStats.enum.filter fun p => fechaInvalida (processRow pmX p.1 p.2)).length ∧
    (getOk (transform_ventas (some dfStats) pmX)).stats.cantidades_invalidas =
      (dfStats.enum.filter fun p => cantidadInvalida (processRow pmX p.1 p.2)).length ∧
    (getOk (transform_ventas (some dfStats) pmX)).stats.precios_invalidos =
      (dfStats.enum.filter fun p => precioInvalido (processRow pmX p.1 p.2)).length ∧
    (getOk (transform_ventas (some dfStats) pmX)).stats.productos_no_mapeados =
      (dfStats.enum.filter fun p => productoNoEncontrado (processRow pmX p.1 p.2)).length :=
  claim_C9_stats.1 dfStats pmX _ rfl

/-- Claim C10, confirmed. Cleaned incoming product names have their internal
whitespace runs collapsed, so their lowercase-and-trim lookup key never
contains two adjacent whitespace characters (first clause); product-map keys
are only lowercased and trimmed at map construction (`transform.py:124`), so
a key that keeps an internal whitespace run can never be matched: when every
key of the supplied map is such a key, every row of the batch is marked
`producto_no_encontrado` (second clause). -/
theorem claim_C10_unmatchable_keys :
    (∀ v : Option String, noWsPair (normKey (clean_string v)).data) ∧
    (∀ (df : List RawRow) (pm : List (String × Int)) (r : TransformResult),
      transform_ventas (some df) pm = .ok r →
      (∀ kv ∈ pm, ¬ noWsPair (normKey kv.1).data) →
      r.stats.productos_no_mapeados = df.length) := by
  refine ⟨noWsPair_normKey_clean, ?_⟩
  intro df pm r h hkeys
  obtain ⟨-, -, -, -, -, -, -, -, hst4, -⟩ := transform_ok_elim h
  rw [hst4]
  have hall : ((mkWork df pm).filter fun w => productoNoEncontrado w) = mkWork df pm := by
    rw [List.filter_eq_self]
    intro w hw
    obtain ⟨-, hproc⟩ := mem_mkWork hw
    have hpid : w.producto_id = map_producto pm (some (clean_string w.raw.producto)) := by
      rw [hproc]
      rfl
    have hfind : ((buildMapLower pm).reverse.find? fun kv =>
        kv.1 = normKey (clean_string w.raw.producto)) = none := by
      rw [List.find?_eq_none]
      intro x hx hcontra
      rw [List.mem_reverse] at hx
      obtain ⟨kv0, hkv0, rfl⟩ := List.mem_map.mp hx
      have heq : normKey kv0.1 = normKey (clean_string w.raw.producto) := by
        simpa using hcontra
      have h2 := noWsPair_normKey_clean w.raw.producto
      rw [← heq] at h2
      exact hkeys kv0 hkv0 h2
    have hnone : map_producto pm (some (clean_string w.raw.producto)) = none := by
      simp [map_producto, pyDictGet, hfind]
    simp [productoNoEncontrado, hpid, hnone]
  rw [hall, length_mkWork]

/-- Claim C10 witness: a cleaned name has no double whitespace, and against a
one-key map whose key keeps a double space every row of a concrete batch is
unmatched. -/
theorem claim_C10_witness :
    noWsPair (normKey (clean_string (some " x   y "))).data ∧
    (getOk (transform_ventas (some [rowGood]) pmDoubleSpace)).stats.productos_no_mapeados =
      ([rowGood] : List RawRow).length :=
  ⟨claim_C10_unmatchable_keys.1 _,
   claim_C10_unmatchable_keys.2 [rowGood] pmDoubleSpace _ rfl (by
     intro kv hkv hch
     rw [show pmDoubleSpace = [("a  b", 5)] from rfl, List.mem_singleton] at hkv
     subst hkv
     have hd : (normKey "a  b").data = ['a', ' ', ' ', 'b'] := rfl
     rw [noWsPair, hd] at hch
     exact (List.chain'_cons.mp (List.chain'_cons.mp hch).2).1 ⟨rfl, rfl⟩)⟩

end ETL
